import Mathlib

/-!
Shallow embedding of the subprocess-orchestration and progress-attribution
engine of `freeDView_tester_runner.cpp` (class `TesterRunner`), together with
proofs about the claims of the specification.

Conventions of the embedding:
* `QMap<QString,int> m_activeTests` is an association list `List (String × Nat)`
  with at most one entry per key (inserts update in place, as `QMap` does).
  `QMap` iterates in key-sorted order while our list keeps discovery order;
  no theorem below depends on the map's iteration order (it only influences
  the order of `matchingKeys`, which matters solely through emptiness,
  being a singleton, and membership, and the order of cancellation events,
  about which we only prove counts).
* `QQueue<QString> m_testKeyQueue` is a `List String`, front at the head.
* Frame counts parsed from the tool's output are `Nat` (the regexes only
  accept digit runs); the C++ `int` values here are always non-negative.
* Signals become an explicit `Event` list returned next to the new state.
* A test key's `startOrder` is its enqueue position in `m_testKeyQueue`.
-/

namespace RenderCompare

/-- The `TesterRunner::Mode` enumeration. -/
inductive Mode where
  | None
  | All
  | CompareThenPrepare
deriving DecidableEq, Repr

/-- `QProcess::ExitStatus`. -/
inductive ExitStatus where
  | NormalExit
  | CrashExit
deriving DecidableEq, Repr

/-- The Qt signals of `TesterRunner`, as event values. -/
inductive Event where
  | runStarted (mode : String)
  | runFinished (success : Bool) (mode : String) (exitCode : Int)
      (stdOut : String) (stdErr : String)
  | progressUpdated (percentage : Int) (message : String)
  | testProgressUpdated (testKey : String) (percentage : Int) (message : String)
  | outputLine (line : String) (isError : Bool)
deriving DecidableEq, Repr

/-- Lookup in `m_activeTests` (`QMap::value` / `operator[]` under a
`contains` guard): first entry whose key matches. -/
def mapGet? : List (String × Nat) → String → Option Nat
  | [], _ => none
  | (k', v) :: rest, k => if k = k' then some v else mapGet? rest k

/-- `QMap::contains`. -/
def mapContains (m : List (String × Nat)) (k : String) : Bool :=
  (mapGet? m k).isSome

/-- `m_activeTests[key] = v`: update the entry in place if the key is present,
append otherwise (a `QMap` insert; key-sorted iteration order is not kept,
see the header note). -/
def mapInsert : List (String × Nat) → String → Nat → List (String × Nat)
  | [], k, v => [(k, v)]
  | (k', v') :: rest, k, v =>
    if k = k' then (k, v) :: rest else (k', v') :: mapInsert rest k v

/-- `QMap::remove` (keys are unique in these maps, so removing the first
occurrence is removal of the key). -/
def mapRemove : List (String × Nat) → String → List (String × Nat)
  | [], _ => []
  | (k', v) :: rest, k => if k = k' then rest else (k', v) :: mapRemove rest k

/-- The loop of `TesterRunner::findTestKeyByFrameCount`, lines 637-641: every
active test key whose recorded frame total equals `frameCount`, counting only
known (`> 0`) totals. -/
def matchingKeys (m : List (String × Nat)) (frameCount : Nat) : List String :=
  (m.filter (fun p => p.2 == frameCount && decide (0 < p.2))).map Prod.fst

/-- The back-to-front queue scan of `findTestKeyByFrameCount`, lines 661-667:
return the queue entry contained in `ks` that sits closest to the back
(the source iterates indices `size-1` down to `0`; returning the deepest
recursive hit first is the same scan). -/
def lastMatchIn (ks : List String) : List String → Option String
  | [] => none
  | q :: qs =>
    match lastMatchIn ks qs with
    | some r => some r
    | none => if ks.contains q then some q else none

/-- `TesterRunner::findTestKeyByFrameCount`, lines 633-672.  Empty string is
the source's "no match" sentinel (`QString()`); registered test keys are never
empty (guarded at line 377). -/
def findTestKeyByFrameCount (m : List (String × Nat)) (queue : List String)
    (frameCount : Nat) : String :=
  match matchingKeys m frameCount with
  | [] => ""
  | [k] => k
  | k :: _ :: _ =>
    match lastMatchIn (matchingKeys m frameCount) queue with
    | some r => r
    | none => k

/-- The FIFO unknown-size assignment loop of the `Progress:` handler,
lines 404-412 (repeated verbatim at lines 446-454 for the `Current folder`
sub-clause): walk the start-order queue front to back and give the observed
total to the first key that is still in the active map with total `0`. -/
def fifoAssign (m : List (String × Nat)) (queue : List String) (total : Nat) :
    Option (String × List (String × Nat)) :=
  match queue with
  | [] => none
  | q :: qs =>
    match mapGet? m q with
    | some 0 => some (q, mapInsert m q total)
    | _ => fifoAssign m qs total

/-! ### Test-key derivation (`TesterRunner::extractTestKeyFromPath`, lines 567-631)

String work is done on `List Char` (Qt indexes `QString` by code unit; all
inputs of interest are ASCII, where the two coincide). -/

/-- `folderPath.replace("\\", "/")`, lines 575 and 606. -/
def replaceBackslashes (l : List Char) : List Char :=
  l.map (fun c => if c = '\\' then '/' else c)

/-- `QString::toLower`, line 578 (ASCII case folding suffices here). -/
def lowerChars (l : List Char) : List Char :=
  l.map Char.toLower

/-- Whether `needle` is a prefix of `l` (step relation of `QString::indexOf`). -/
def isPrefixL : List Char → List Char → Bool
  | [], _ => true
  | _ :: _, [] => false
  | a :: as, b :: bs => a == b && isPrefixL as bs

/-- `QString::indexOf(needle)`: index of the first occurrence of `needle`. -/
def findSub (needle : List Char) : List Char → Option Nat
  | [] => if needle.isEmpty then some 0 else none
  | c :: rest =>
    if isPrefixL needle (c :: rest) then some 0
    else (findSub needle rest).map (fun i => i + 1)

/-- The lowercase marker searched for at line 579. -/
def markerChars : List Char := "testsets_results".data

/-- The trailing-slash chop loop, lines 601-603. -/
def stripTrailingSlashes (l : List Char) : List Char :=
  (l.reverse.dropWhile (fun c => c == '/')).reverse

/-! The structural fallback of lines 613-627 uses
`QRegExp("([A-Za-z0-9_\s/]+/[A-Z0-9_]+/[A-Z0-9]+/F\d+)")`.  We embed that
fixed pattern as a list of atoms and run a greedy backtracking matcher (the
semantics of `QRegExp`): a `plus` atom first consumes the longest run of its
character class and backs off one character at a time until the remaining
atoms match. -/

/-- One atom of the fallback pattern: a literal character or a greedy `X+`. -/
inductive RAtom where
  | lit : Char → RAtom
  | plus : (Char → Bool) → RAtom

/-- `[A-Za-z0-9_\s/]`. -/
def fbClassAny (c : Char) : Bool :=
  c.isAlphanum || c == '_' || c.isWhitespace || c == '/'

/-- `[A-Z0-9_]`. -/
def fbClassUpperUnd (c : Char) : Bool :=
  ('A' ≤ c && c ≤ 'Z') || c.isDigit || c == '_'

/-- `[A-Z0-9]`. -/
def fbClassUpper (c : Char) : Bool :=
  ('A' ≤ c && c ≤ 'Z') || c.isDigit

/-- The atoms of `([A-Za-z0-9_\s/]+/[A-Z0-9_]+/[A-Z0-9]+/F\d+)`. -/
def fallbackPattern : List RAtom :=
  [RAtom.plus fbClassAny, RAtom.lit '/', RAtom.plus fbClassUpperUnd,
   RAtom.lit '/', RAtom.plus fbClassUpper, RAtom.lit '/', RAtom.lit 'F',
   RAtom.plus Char.isDigit]

/-- Length of the maximal run of characters of class `cls` at the front. -/
def countRun (cls : Char → Bool) : List Char → Nat
  | [] => 0
  | c :: rest => if cls c then countRun cls rest + 1 else 0

mutual

/-- Length matched by `atoms` at the front of `l` (greedy, backtracking),
`none` if they do not match there.  Fueled to make the backtracking
structurally terminating; `matchAtomsAt` supplies ample fuel. -/
def matchAtomsF : Nat → List RAtom → List Char → Option Nat
  | 0, _, _ => none
  | _ + 1, [], _ => some 0
  | fuel + 1, RAtom.lit c :: rest, l =>
    match l with
    | [] => none
    | x :: xs =>
      if x == c then (matchAtomsF fuel rest xs).map (fun n => n + 1) else none
  | fuel + 1, RAtom.plus cls :: rest, l =>
    tryPlusF fuel cls rest l (countRun cls l)

/-- Try to let a greedy `cls+` consume `k, k-1, …, 1` characters of `l`,
matching `rest` after it; first success wins. -/
def tryPlusF : Nat → (Char → Bool) → List RAtom → List Char → Nat → Option Nat
  | 0, _, _, _, _ => none
  | _ + 1, _, _, _, 0 => none
  | fuel + 1, cls, rest, l, k + 1 =>
    match matchAtomsF fuel rest (l.drop (k + 1)) with
    | some n => some (k + 1 + n)
    | none => tryPlusF fuel cls rest l k

end

/-- Run the atom matcher with enough fuel for its worst case. -/
def matchAtomsAt (atoms : List RAtom) (l : List Char) : Option Nat :=
  matchAtomsF ((atoms.length + 1) * (l.length + 2) * (l.length + 2)) atoms l

/-- `QRegExp::indexIn`: position and length of the leftmost match. -/
def findFirstMatch (atoms : List RAtom) : List Char → Option (Nat × Nat)
  | [] =>
    match matchAtomsAt atoms [] with
    | some n => some (0, n)
    | none => none
  | c :: rest =>
    match matchAtomsAt atoms (c :: rest) with
    | some n => some (0, n)
    | none => (findFirstMatch atoms rest).map (fun p => (p.1 + 1, p.2))

/-- Accumulator loop of `QString::split("/")` (keeps empty parts). -/
def splitOnSlashGo : List Char → List Char → List (List Char)
  | [], acc => [acc.reverse]
  | c :: rest, acc =>
    if c == '/' then acc.reverse :: splitOnSlashGo rest []
    else splitOnSlashGo rest (c :: acc)

/-- `QString::split("/")`. -/
def splitOnSlash (l : List Char) : List (List Char) :=
  splitOnSlashGo l []

/-- `QStringList::join("/")`. -/
def joinSlash : List (List Char) → List Char
  | [] => []
  | [p] => p
  | p :: rest => p ++ '/' :: joinSlash rest

/-- The fallback branch of `extractTestKeyFromPath`, lines 613-627: find the
pattern, split the capture on `/`, keep the last four components. -/
def extractTestKeyFallbackL (normalizedPath : List Char) : List Char :=
  match findFirstMatch fallbackPattern normalizedPath with
  | none => []
  | some (i, n) =>
    let captured := (normalizedPath.drop i).take n
    let parts := splitOnSlash captured
    if 4 ≤ parts.length then joinSlash (parts.drop (parts.length - 4))
    else captured

/-- `TesterRunner::extractTestKeyFromPath`, lines 567-631, on `List Char`:
normalize separators, locate the (lower-cased) results-root marker, take
everything after it with leading slashes skipped and trailing slashes
chopped; fall back to the structural pattern when the marker is absent.
The source's second, case-insensitive `indexOf` at line 585 is the same
search as the lower-cased one at line 579, and its `-1` fallback branch
(line 591) is therefore unreachable; both are kept as written. -/
def extractTestKeyFromPathL (folderPath : List Char) : List Char :=
  let normalizedPath := replaceBackslashes folderPath
  let lowerPath := lowerChars normalizedPath
  match findSub markerChars lowerPath with
  | some testSetsResultsIndex =>
    let startIndex :=
      match findSub markerChars (lowerChars normalizedPath) with
      | some actualStartIndex => actualStartIndex + markerChars.length
      | none => testSetsResultsIndex + markerChars.length
    let tailPart := (normalizedPath.drop startIndex).dropWhile (fun c => c == '/')
    replaceBackslashes (stripTrailingSlashes tailPart)
  | none => extractTestKeyFallbackL normalizedPath

/-- `TesterRunner::extractTestKeyFromPath` at `String` level (empty string =
derivation failed). -/
def extractTestKeyFromPath (folderPath : String) : String :=
  String.mk (extractTestKeyFromPathL folderPath.data)

/-- Full resolution of an anonymous progress observation, lines 401-415:
exact frame-count match first, FIFO unknown-size assignment otherwise.
Returns the matched key (the `""` sentinel when both phases fail) and the
possibly updated active-test map. -/
def resolveProgress (m : List (String × Nat)) (queue : List String)
    (total : Nat) : String × List (String × Nat) :=
  let matched := findTestKeyByFrameCount m queue total
  if matched = "" then
    match fifoAssign m queue total with
    | some (k, m') => (k, m')
    | none => ("", m)
  else (matched, m)

/-! ### The coordinator state machine (`TesterRunner`) -/

/-- The mutable fields of `TesterRunner` that the claims are about, plus a
boolean per `QProcess` recording whether that channel currently has a live
process (`state() == Running || state() == Starting`). -/
structure RunnerState where
  mode : Mode
  step2Queued : Bool
  testerPath : String
  iniPath : String
  currentTestKey : String
  activeTests : List (String × Nat)
  testKeyQueue : List String
  processRunning : Bool
  prepareUIRunning : Bool
deriving DecidableEq, Repr

/-- The state built by the constructor, lines 8-18. -/
def idleState : RunnerState :=
  { mode := Mode.None, step2Queued := false, testerPath := "", iniPath := "",
    currentTestKey := "", activeTests := [], testKeyQueue := [],
    processRunning := false, prepareUIRunning := false }

/-- Outcome of trying to launch the external process: found and started,
not found on the search path (line 546), or found but failed to start within
the bounded wait (line 557).  This is an environment input to the model. -/
inductive LaunchResult where
  | ok
  | notFound
  | failedToStart
deriving DecidableEq, Repr

/-- The mode label computed at lines 50-51 (and 81-82). -/
def modeLabel : Mode → String
  | Mode.All => "all"
  | Mode.CompareThenPrepare => "compare+prepare"
  | Mode.None => "unknown"

/-- `TesterRunner::startProcess`, lines 332-565, reduced to its externally
visible effect: on success the primary channel is running and nothing is
emitted; the two launch-failure paths emit a failure `runFinished` with the
literal mode label `"unknown"` and leave every state field unchanged
(argument assembly and logging are not modelled — no claim mentions them;
the failure messages carry the source's leading text). -/
def startProcessModel (s : RunnerState) (launch : LaunchResult) :
    RunnerState × List Event :=
  match launch with
  | LaunchResult.ok => ({ s with processRunning := true }, [])
  | LaunchResult.notFound =>
    (s, [Event.runFinished false "unknown" (-1) "" "Program not found: python"])
  | LaunchResult.failedToStart =>
    (s, [Event.runFinished false "unknown" (-1) "" "Failed to start process"])

/-- `TesterRunner::runAll`, lines 110-157: validate inputs (each failure
emits its failure outcome and changes nothing), then record the request,
reset the tracker, emit `runStarted` and launch. -/
def runAllModel (s : RunnerState) (testerPath iniPath : String)
    (launch : LaunchResult) : RunnerState × List Event :=
  if testerPath = "" then
    (s, [Event.runFinished false "all" (-1) "" "Invalid tester path"])
  else if iniPath = "" then
    (s, [Event.runFinished false "all" (-1) "" "Invalid INI path"])
  else
    let s1 := { s with testerPath := testerPath, iniPath := iniPath,
                       mode := Mode.All, step2Queued := false,
                       currentTestKey := "", activeTests := [],
                       testKeyQueue := [] }
    let r := startProcessModel s1 launch
    (r.1, Event.runStarted "all" :: r.2)

/-- `TesterRunner::runCompareAndPrepare`, lines 159-204 (identical shape to
`runAll` with mode `CompareThenPrepare` and label `"compare+prepare"`). -/
def runCompareAndPrepareModel (s : RunnerState) (testerPath iniPath : String)
    (launch : LaunchResult) : RunnerState × List Event :=
  if testerPath = "" then
    (s, [Event.runFinished false "compare+prepare" (-1) "" "Invalid tester path"])
  else if iniPath = "" then
    (s, [Event.runFinished false "compare+prepare" (-1) "" "Invalid INI path"])
  else
    let s1 := { s with testerPath := testerPath, iniPath := iniPath,
                       mode := Mode.CompareThenPrepare, step2Queued := false,
                       currentTestKey := "", activeTests := [],
                       testKeyQueue := [] }
    let r := startProcessModel s1 launch
    (r.1, Event.runStarted "compare+prepare" :: r.2)

/-- `TesterRunner::runNextStep`, lines 304-330: in chained mode launch the
`prepare-ui` subcommand on the primary channel, otherwise do nothing. -/
def runNextStepModel (s : RunnerState) (launch : LaunchResult) :
    RunnerState × List Event :=
  if s.mode = Mode.CompareThenPrepare then startProcessModel s launch
  else (s, [])

/-- `TesterRunner::onProcessFinished`, lines 20-55: clear the tracking data,
emit the final aggregate progress, then either chain the second phase
(mode `CompareThenPrepare` with the step-2 flag still clear — no run outcome
is emitted) or emit the run outcome (`success` iff a normal exit with code
`0`) and return to `Mode::None`. -/
def onProcessFinishedModel (s : RunnerState) (exitCode : Int)
    (exitStatus : ExitStatus) (stdOut stdErr : String)
    (launch : LaunchResult) : RunnerState × List Event :=
  let s0 := { s with processRunning := false, activeTests := [],
                     testKeyQueue := [], currentTestKey := "" }
  let ev0 := Event.progressUpdated 100 "Processing completed"
  if s0.mode = Mode.CompareThenPrepare ∧ s0.step2Queued = false then
    let r := runNextStepModel { s0 with step2Queued := true } launch
    (r.1, ev0 :: r.2)
  else
    let success := decide (exitStatus = ExitStatus.NormalExit ∧ exitCode = 0)
    ({ s0 with mode := Mode.None, step2Queued := false },
     [ev0, Event.runFinished success (modeLabel s0.mode) exitCode stdOut stdErr])

/-- `TesterRunner::onPrepareUIProcessFinished`, lines 674-694: the
independent channel emits exactly one outcome tagged `"prepare-ui"`. -/
def onPrepareUIFinishedModel (s : RunnerState) (exitCode : Int)
    (exitStatus : ExitStatus) (stdOut stdErr : String) :
    RunnerState × List Event :=
  ({ s with prepareUIRunning := false },
   [Event.runFinished (decide (exitStatus = ExitStatus.NormalExit ∧ exitCode = 0))
      "prepare-ui" exitCode stdOut stdErr])

/-- `TesterRunner::stop`, lines 59-108: if the primary process is live, kill
it, emit a `"Cancelled"` per-unit event (percentage `-1`) for every key in
the active map, clear the tracker, emit the cancellation outcome and reset
the mode; otherwise the primary branch does nothing.  Then, independently,
kill the `prepare-ui` channel if it is live, with its own outcome. -/
def stopModel (s : RunnerState) : RunnerState × List Event :=
  let r1 :=
    if s.processRunning then
      ({ s with processRunning := false, activeTests := [], testKeyQueue := [],
                currentTestKey := "", mode := Mode.None, step2Queued := false },
       (s.activeTests.map
          (fun p => Event.testProgressUpdated p.1 (-1) "Cancelled")) ++
       [Event.runFinished false (modeLabel s.mode) (-1) ""
          "Operation cancelled by user"])
    else (s, [])
  let r2 :=
    if r1.1.prepareUIRunning then
      ({ r1.1 with prepareUIRunning := false },
       [Event.runFinished false "prepare-ui" (-1) "" "Phase 4 cancelled by user"])
    else (r1.1, [])
  (r2.1, r1.2 ++ r2.2)

/-! ### Per-line handlers of the output-parsing closure (lines 352-524) -/

/-- The `"Processing: %1/%2 frames"` message built at lines 395, 440, 464. -/
def progressMessage (current total : Nat) : String :=
  "Processing: " ++ toString current ++ "/" ++ toString total ++ " frames"

/-- The queue-removal loop of lines 479-484: drop the first occurrence. -/
def removeFirstFromQueue : List String → String → List String
  | [], _ => []
  | x :: xs, k => if x = k then xs else x :: removeFirstFromQueue xs k

/-- The `"Starting comparison for:"` handler, lines 370-387: derive the test
key; when derivable, make it current, (re-)insert it into the active map with
total `0`, enqueue it, and emit the `"Starting..."` event. -/
def handleStartingComparison (s : RunnerState) (folderPath : String) :
    RunnerState × List Event :=
  let testKey := extractTestKeyFromPath folderPath
  if testKey = "" then (s, [])
  else
    ({ s with currentTestKey := testKey,
              activeTests := mapInsert s.activeTests testKey 0,
              testKeyQueue := s.testKeyQueue ++ [testKey] },
     [Event.testProgressUpdated testKey 0 "Starting..."])

/-- The `"Progress: a/b frames (p%)"` handler, lines 390-423: resolve the
total (exact match, else FIFO assignment), emit the per-unit event when
resolution succeeded, and always emit the overall event from the line's own
percent. -/
def handleProgress (s : RunnerState) (current total percent : Nat) :
    RunnerState × List Event :=
  let message := progressMessage current total
  let r := resolveProgress s.activeTests s.testKeyQueue total
  ({ s with activeTests := r.2 },
   (if r.1 = "" then [] else [Event.testProgressUpdated r.1 (percent : Int) message]) ++
   [Event.progressUpdated (percent : Int) message])

/-- The `"Overall progress:"` handler, lines 428-467.  `sub` is the optional
`"Current folder: a/b frames"` clause.  The source computes the per-folder
percent as `(int)((folderCurrent * 100.0) / folderTotal)` guarded by
`folderTotal > 0`; the guarded branch is modelled as `Nat` floor division
(no theorem below depends on that branch's value) and the `folderTotal == 0`
branch is the literal `0` of line 439. -/
def handleOverallProgress (s : RunnerState) (current total percent : Nat)
    (sub : Option (Nat × Nat)) : RunnerState × List Event :=
  match sub with
  | none => (s, [Event.progressUpdated (percent : Int) (progressMessage current total)])
  | some (folderCurrent, folderTotal) =>
    let folderPercent : Nat :=
      if 0 < folderTotal then folderCurrent * 100 / folderTotal else 0
    let message := progressMessage folderCurrent folderTotal
    let r := resolveProgress s.activeTests s.testKeyQueue folderTotal
    ({ s with activeTests := r.2 },
     (if r.1 = "" then []
      else [Event.testProgressUpdated r.1 (folderPercent : Int) message]) ++
     [Event.progressUpdated (percent : Int) (progressMessage current total)])

/-- The `"Successfully completed comparison for:"` handler, lines 470-496. -/
def handleSuccessfullyCompleted (s : RunnerState) (folderPath : String) :
    RunnerState × List Event :=
  let testKey := extractTestKeyFromPath folderPath
  if testKey ≠ "" then
    ({ s with activeTests := mapRemove s.activeTests testKey,
              testKeyQueue := removeFirstFromQueue s.testKeyQueue testKey,
              currentTestKey := if s.currentTestKey = testKey then ""
                                else s.currentTestKey },
     [Event.testProgressUpdated testKey 100 "Completed"])
  else if s.currentTestKey ≠ "" then
    ({ s with activeTests := mapRemove s.activeTests s.currentTestKey,
              currentTestKey := "" },
     [Event.testProgressUpdated s.currentTestKey 100 "Completed"])
  else (s, [])

/-- The implicit `"Frame comparison completed"` marker, lines 499-506: the
current key (when set) is completed and removed from the active map, but it
stays both the current pointer and in the start-order queue. -/
def handleFrameComparisonCompleted (s : RunnerState) :
    RunnerState × List Event :=
  if s.currentTestKey = "" then (s, [])
  else
    ({ s with activeTests := mapRemove s.activeTests s.currentTestKey },
     [Event.testProgressUpdated s.currentTestKey 100 "Completed"])

/-- `true` exactly on `runFinished` events (run outcomes). -/
def isRunOutcome : Event → Bool
  | Event.runFinished _ _ _ _ _ => true
  | _ => false

/-- `true` exactly on the `"Cancelled"` per-unit events emitted by `stop`. -/
def isCancelledUnitEvent : Event → Bool
  | Event.testProgressUpdated _ p msg => p == -1 && msg == "Cancelled"
  | _ => false

/-! ### Supporting lemmas about the attribution functions -/

theorem lastMatchIn_eq_none (ks : List String) :
    ∀ l, lastMatchIn ks l = none → ∀ x ∈ l, ks.contains x = false := by
  intro l
  induction l with
  | nil => intro _ x hx; cases hx
  | cons q qs ih =>
    intro h x hx
    rw [lastMatchIn] at h
    cases hrec : lastMatchIn ks qs with
    | some r => rw [hrec] at h; exact Option.noConfusion h
    | none =>
      rw [hrec] at h
      cases hb : ks.contains q with
      | true => rw [hb] at h; simp at h
      | false =>
        rcases List.mem_cons.mp hx with rfl | hx'
        · exact hb
        · exact ih hrec x hx'

theorem lastMatchIn_eq_some (ks : List String) :
    ∀ l r, lastMatchIn ks l = some r →
      ks.contains r = true ∧
      ∃ pre post, l = pre ++ r :: post ∧ ∀ x ∈ post, ks.contains x = false := by
  intro l
  induction l with
  | nil => intro r h; rw [lastMatchIn] at h; exact Option.noConfusion h
  | cons q qs ih =>
    intro r h
    rw [lastMatchIn] at h
    cases hrec : lastMatchIn ks qs with
    | some r' =>
      rw [hrec] at h
      simp only [Option.some.injEq] at h
      subst h
      obtain ⟨hc, pre, post, hdec, hpost⟩ := ih r' hrec
      exact ⟨hc, q :: pre, post, by rw [hdec]; rfl, hpost⟩
    | none =>
      rw [hrec] at h
      cases hb : ks.contains q with
      | false => rw [hb] at h; simp at h
      | true =>
        rw [hb] at h
        simp only [if_true, Option.some.injEq] at h
        subst h
        exact ⟨hb, [], qs, rfl, lastMatchIn_eq_none ks qs hrec⟩

theorem lastMatchIn_isSome (ks : List String) (l : List String) (x : String)
    (hx : x ∈ l) (hc : ks.contains x = true) :
    ∃ r, lastMatchIn ks l = some r := by
  induction l with
  | nil => cases hx
  | cons q qs ih =>
    rw [lastMatchIn]
    cases hrec : lastMatchIn ks qs with
    | some r => exact ⟨r, rfl⟩
    | none =>
      rcases List.mem_cons.mp hx with rfl | hx'
      · exact ⟨x, by rw [hc]; rfl⟩
      · obtain ⟨r, hr⟩ := ih hx'
        rw [hrec] at hr
        exact Option.noConfusion hr

theorem mem_matchingKeys {m : List (String × Nat)} {t : Nat} {k : String} :
    k ∈ matchingKeys m t ↔ ∃ v, (k, v) ∈ m ∧ v = t ∧ 0 < v := by
  unfold matchingKeys
  simp only [List.mem_map, List.mem_filter, Bool.and_eq_true, beq_iff_eq,
    decide_eq_true_eq]
  constructor
  · rintro ⟨⟨k', v⟩, ⟨hm, hv, hpos⟩, rfl⟩
    exact ⟨v, hm, hv, hpos⟩
  · rintro ⟨v, hm, hv, hpos⟩
    exact ⟨(k, v), ⟨hm, hv, hpos⟩, rfl⟩

theorem mapContains_of_mem {m : List (String × Nat)} {k : String} {v : Nat}
    (h : (k, v) ∈ m) : mapContains m k = true := by
  induction m with
  | nil => cases h
  | cons p rest ih =>
    obtain ⟨k', v'⟩ := p
    rcases List.mem_cons.mp h with heq | hmem
    · obtain ⟨rfl, rfl⟩ := Prod.mk.injEq .. ▸ heq
      simp [mapContains, mapGet?]
    · by_cases hk : k = k'
      · simp [mapContains, mapGet?, hk]
      · simpa [mapContains, mapGet?, hk] using ih hmem

theorem contains_matchingKeys_sub {m : List (String × Nat)} {t : Nat}
    {k : String} (h : k ∈ matchingKeys m t) : mapContains m k = true := by
  obtain ⟨v, hm, _, _⟩ := mem_matchingKeys.mp h
  exact mapContains_of_mem hm

theorem matchingKeys_eq_nil {m : List (String × Nat)} {t : Nat}
    (h : ∀ p ∈ m, ¬(p.2 = t ∧ 0 < p.2)) : matchingKeys m t = [] := by
  unfold matchingKeys
  rw [List.filter_eq_nil_iff.mpr, List.map_nil]
  intro p hp
  simp only [Bool.and_eq_true, beq_iff_eq, decide_eq_true_eq]
  exact fun hc => h p hp hc

theorem mapGet?_mapInsert_self (m : List (String × Nat)) (k : String) (v : Nat) :
    mapGet? (mapInsert m k v) k = some v := by
  induction m with
  | nil => simp [mapInsert, mapGet?]
  | cons p rest ih =>
    obtain ⟨k', v'⟩ := p
    by_cases hk : k = k'
    · simp [mapInsert, mapGet?, hk]
    · simp [mapInsert, mapGet?, hk, ih]

theorem mapGet?_mapInsert_ne (m : List (String × Nat)) (k : String) (v : Nat)
    (k' : String) (h : k' ≠ k) :
    mapGet? (mapInsert m k v) k' = mapGet? m k' := by
  induction m with
  | nil => simp [mapInsert, mapGet?, h]
  | cons p rest ih =>
    obtain ⟨a, b⟩ := p
    by_cases hk : k = a
    · subst hk
      simp [mapInsert, mapGet?, h]
    · by_cases hk' : k' = a
      · simp [mapInsert, mapGet?, hk, hk']
      · simp [mapInsert, mapGet?, hk, hk', ih]

theorem matchingKeys_mapInsert_singleton {m : List (String × Nat)} {t : Nat}
    {k : String} (ht : 0 < t) (hget : mapGet? m k = some 0)
    (hno : ∀ p ∈ m, ¬(p.2 = t ∧ 0 < p.2)) :
    matchingKeys (mapInsert m k t) t = [k] := by
  induction m with
  | nil => simp [mapGet?] at hget
  | cons p rest ih =>
    obtain ⟨a, b⟩ := p
    by_cases hk : k = a
    · subst hk
      have hins : mapInsert ((k, b) :: rest) k t = (k, t) :: rest := by
        simp [mapInsert]
      rw [hins]
      unfold matchingKeys
      rw [List.filter_cons_of_pos (by simp [ht]),
        List.filter_eq_nil_iff.mpr, List.map_cons, List.map_nil]
      intro p hp
      simp only [Bool.and_eq_true, beq_iff_eq, decide_eq_true_eq]
      exact fun hc => hno p (List.mem_cons_of_mem _ hp) hc
    · have hins : mapInsert ((a, b) :: rest) k t = (a, b) :: mapInsert rest k t := by
        simp [mapInsert, hk]
      rw [hins]
      unfold matchingKeys
      rw [List.filter_cons_of_neg]
      · exact ih (by simpa [mapGet?, hk] using hget)
          (fun p hp => hno p (List.mem_cons_of_mem _ hp))
      · have := hno (a, b) (List.mem_cons_self _ _)
        simp only [Bool.and_eq_true, beq_iff_eq, decide_eq_true_eq]
        exact this

theorem fifoAssign_eq_none (m : List (String × Nat)) (t : Nat) :
    ∀ q, fifoAssign m q t = none → ∀ x ∈ q, mapGet? m x ≠ some 0 := by
  intro q
  induction q with
  | nil => intro _ x hx; cases hx
  | cons a qs ih =>
    intro h x hx
    rw [fifoAssign] at h
    rcases List.mem_cons.mp hx with rfl | hx'
    · intro hget
      rw [hget] at h
      simp at h
    · cases hget : mapGet? m a with
      | none => rw [hget] at h; exact ih h x hx'
      | some v =>
        cases v with
        | zero => rw [hget] at h; simp at h
        | succ n => rw [hget] at h; exact ih h x hx'

theorem fifoAssign_eq_some (m : List (String × Nat)) (t : Nat) :
    ∀ q k m', fifoAssign m q t = some (k, m') →
      mapGet? m k = some 0 ∧ m' = mapInsert m k t ∧
      ∃ pre post, q = pre ++ k :: post ∧ ∀ x ∈ pre, mapGet? m x ≠ some 0 := by
  intro q
  induction q with
  | nil => intro k m' h; rw [fifoAssign] at h; exact Option.noConfusion h
  | cons a qs ih =>
    intro k m' h
    rw [fifoAssign] at h
    cases hget : mapGet? m a with
    | none =>
      rw [hget] at h
      obtain ⟨h0, hins, pre, post, hdec, hpre⟩ := ih k m' h
      refine ⟨h0, hins, a :: pre, post, by rw [hdec]; rfl, ?_⟩
      intro x hx
      rcases List.mem_cons.mp hx with rfl | hx'
      · rw [hget]; exact fun hc => Option.noConfusion hc
      · exact hpre x hx'
    | some v =>
      cases v with
      | zero =>
        rw [hget] at h
        simp only [Option.some.injEq, Prod.mk.injEq] at h
        obtain ⟨rfl, rfl⟩ := h
        exact ⟨hget, rfl, [], qs, rfl, by intro x hx; cases hx⟩
      | succ n =>
        rw [hget] at h
        obtain ⟨h0, hins, pre, post, hdec, hpre⟩ := ih k m' h
        refine ⟨h0, hins, a :: pre, post, by rw [hdec]; rfl, ?_⟩
        intro x hx
        rcases List.mem_cons.mp hx with rfl | hx'
        · rw [hget]; simp
        · exact hpre x hx'

theorem fifoAssign_isSome (m : List (String × Nat)) (t : Nat) (q : List String)
    (x : String) (hx : x ∈ q) (h0 : mapGet? m x = some 0) :
    ∃ k m', fifoAssign m q t = some (k, m') := by
  induction q with
  | nil => cases hx
  | cons a qs ih =>
    rw [fifoAssign]
    cases hget : mapGet? m a with
    | none =>
      rcases List.mem_cons.mp hx with rfl | hx'
      · rw [hget] at h0; exact Option.noConfusion h0
      · exact ih hx'
    | some v =>
      cases v with
      | zero => exact ⟨a, mapInsert m a t, rfl⟩
      | succ n =>
        rcases List.mem_cons.mp hx with rfl | hx'
        · rw [hget] at h0; simp at h0
        · exact ih hx'

theorem findTestKey_contains (m : List (String × Nat)) (q : List String)
    (t : Nat) (h : findTestKeyByFrameCount m q t ≠ "") :
    mapContains m (findTestKeyByFrameCount m q t) = true := by
  cases hmk : matchingKeys m t with
  | nil =>
    exfalso
    apply h
    simp only [findTestKeyByFrameCount, hmk]
  | cons k1 tl =>
    have hk1 : k1 ∈ matchingKeys m t := by
      rw [hmk]; exact List.mem_cons_self _ _
    cases tl with
    | nil =>
      have hfind : findTestKeyByFrameCount m q t = k1 := by
        simp only [findTestKeyByFrameCount, hmk]
      rw [hfind]
      exact contains_matchingKeys_sub hk1
    | cons k2 tl2 =>
      cases hlm : lastMatchIn (k1 :: k2 :: tl2) q with
      | some r =>
        have hfind : findTestKeyByFrameCount m q t = r := by
          simp only [findTestKeyByFrameCount, hmk, hlm]
        rw [hfind]
        obtain ⟨hc, _⟩ := lastMatchIn_eq_some (k1 :: k2 :: tl2) q r hlm
        have hr : r ∈ matchingKeys m t := by
          rw [hmk]; simpa using hc
        exact contains_matchingKeys_sub hr
      | none =>
        have hfind : findTestKeyByFrameCount m q t = k1 := by
          simp only [findTestKeyByFrameCount, hmk, hlm]
        rw [hfind]
        exact contains_matchingKeys_sub hk1

/-! ### Claim C1 -/

/-- Claim C1: when a progress observation's total equals the known total of
two or more keys of the active-test map (all of which sit in the start-order
queue, as registration guarantees), `findTestKeyByFrameCount` returns one of
the matching keys, and the queue splits as `pre ++ result :: post` with every
other matching key in `pre` — the result is the matching key enqueued last,
i.e. the one with the largest `startOrder` (most recently started). -/
theorem c1_duplicate_total_resolves_to_most_recent
    (m : List (String × Nat)) (q : List String) (total : Nat)
    (hlen : 2 ≤ (matchingKeys m total).length)
    (hsub : ∀ k ∈ matchingKeys m total, k ∈ q) :
    findTestKeyByFrameCount m q total ∈ matchingKeys m total ∧
    ∃ pre post, q = pre ++ findTestKeyByFrameCount m q total :: post ∧
      ∀ k ∈ matchingKeys m total, k ≠ findTestKeyByFrameCount m q total →
        k ∈ pre := by
  cases hmk : matchingKeys m total with
  | nil => rw [hmk] at hlen; simp at hlen
  | cons k1 tl =>
    cases tl with
    | nil => rw [hmk] at hlen; simp at hlen
    | cons k2 tl2 =>
      have hk1 : k1 ∈ matchingKeys m total := by
        rw [hmk]; exact List.mem_cons_self _ _
      have hk1c : (k1 :: k2 :: tl2).contains k1 = true := by simp
      obtain ⟨r, hlm⟩ :=
        lastMatchIn_isSome (k1 :: k2 :: tl2) q k1 (hsub k1 hk1) hk1c
      have hfind : findTestKeyByFrameCount m q total = r := by
        simp only [findTestKeyByFrameCount, hmk, hlm]
      obtain ⟨hc, pre, post, hdec, hpost⟩ :=
        lastMatchIn_eq_some (k1 :: k2 :: tl2) q r hlm
      have hrmem : r ∈ k1 :: k2 :: tl2 := by simpa using hc
      rw [hfind]
      refine ⟨hrmem, pre, post, hdec, ?_⟩
      intro k hk hkr
      have hkq : k ∈ q := hsub k (hmk ▸ hk)
      rw [hdec] at hkq
      rcases List.mem_append.mp hkq with hpre | hrest
      · exact hpre
      · rcases List.mem_cons.mp hrest with rfl | hin
        · exact absurd rfl hkr
        · exfalso
          have := hpost k hin
          simp [hk] at this

/-- Witness for C1 at a concrete state: keys `"A"` and `"B"` both have known
total `5`, `"B"` was started last, and resolution returns `"B"`. -/
theorem c1_duplicate_total_resolves_to_most_recent_witness :
    (2 ≤ (matchingKeys [("A", 5), ("B", 5)] 5).length ∧
      ∀ k ∈ matchingKeys [("A", 5), ("B", 5)] 5, k ∈ ["A", "B"]) ∧
    (findTestKeyByFrameCount [("A", 5), ("B", 5)] ["A", "B"] 5 ∈
        matchingKeys [("A", 5), ("B", 5)] 5 ∧
      ∃ pre post,
        ["A", "B"] =
          pre ++ findTestKeyByFrameCount [("A", 5), ("B", 5)] ["A", "B"] 5 :: post ∧
        ∀ k ∈ matchingKeys [("A", 5), ("B", 5)] 5,
          k ≠ findTestKeyByFrameCount [("A", 5), ("B", 5)] ["A", "B"] 5 →
            k ∈ pre) :=
  ⟨⟨by decide, by decide⟩,
    c1_duplicate_total_resolves_to_most_recent [("A", 5), ("B", 5)] ["A", "B"] 5
      (by decide) (by decide)⟩

/-! ### Claim C2 -/

/-- Claim C2 (amended to positive observed totals): when a progress
observation's total is positive, matches no known total in the active map,
and some queued test still has `knownTotalUnits == 0`, resolution assigns the
observation to the queue-first (smallest `startOrder`) such test — the queue
splits as `pre ++ k :: post` with no still-unsized active test in `pre` —
sets that test's total to the observed value, and a subsequent observation
with the same total resolves to the same key by exact match. -/
theorem c2_unknown_size_fifo_assignment
    (m : List (String × Nat)) (q : List String) (total : Nat)
    (ht : 0 < total)
    (hno : ∀ p ∈ m, ¬(p.2 = total ∧ 0 < p.2))
    (hzero : ∃ k0 ∈ q, mapGet? m k0 = some 0) :
    ∃ k m', resolveProgress m q total = (k, m') ∧
      mapGet? m k = some 0 ∧
      (∃ pre post, q = pre ++ k :: post ∧ ∀ x ∈ pre, mapGet? m x ≠ some 0) ∧
      mapGet? m' k = some total ∧
      findTestKeyByFrameCount m' q total = k := by
  have hmk : matchingKeys m total = [] := matchingKeys_eq_nil hno
  have hfind : findTestKeyByFrameCount m q total = "" := by
    simp only [findTestKeyByFrameCount, hmk]
  obtain ⟨k0, hk0q, hk00⟩ := hzero
  obtain ⟨k, m', hfa⟩ := fifoAssign_isSome m total q k0 hk0q hk00
  obtain ⟨h0, hins, pre, post, hdec, hpre⟩ := fifoAssign_eq_some m total q k m' hfa
  refine ⟨k, m', ?_, h0, ⟨pre, post, hdec, hpre⟩, ?_, ?_⟩
  · simp [resolveProgress, hfind, hfa]
  · rw [hins]; exact mapGet?_mapInsert_self m k total
  · have hsing : matchingKeys m' total = [k] := by
      rw [hins]; exact matchingKeys_mapInsert_singleton ht h0 hno
    simp only [findTestKeyByFrameCount, hsing]

/-- Counterexample to C2 as stated: with the single active test `"K"` still
unsized, an observation with total `0` satisfies the claim's preconditions
(it matches no known total, and an unsized active test exists), is assigned
to `"K"`, but a subsequent observation with the same total `0` is *not*
resolved by exact match — `findTestKeyByFrameCount` still fails, because the
exact-match phase only considers totals `> 0`. -/
theorem c2_counterexample :
    matchingKeys [("K", 0)] 0 = [] ∧
    mapGet? [("K", 0)] "K" = some 0 ∧
    resolveProgress [("K", 0)] ["K"] 0 = ("K", [("K", 0)]) ∧
    findTestKeyByFrameCount [("K", 0)] ["K"] 0 ≠ "K" := by decide

/-- Witness for C2: two unsized tests `"K1"` (older) and `"K2"`; total `200`
goes to `"K1"` and afterwards resolves to `"K1"` exactly. -/
theorem c2_unknown_size_fifo_assignment_witness :
    (0 < 200 ∧ (∀ p ∈ [("K1", 0), ("K2", 0)], ¬(p.2 = 200 ∧ 0 < p.2)) ∧
      ∃ k0 ∈ ["K1", "K2"], mapGet? [("K1", 0), ("K2", 0)] k0 = some 0) ∧
    (∃ k m', resolveProgress [("K1", 0), ("K2", 0)] ["K1", "K2"] 200 = (k, m') ∧
      mapGet? [("K1", 0), ("K2", 0)] k = some 0 ∧
      (∃ pre post, ["K1", "K2"] = pre ++ k :: post ∧
        ∀ x ∈ pre, mapGet? [("K1", 0), ("K2", 0)] x ≠ some 0) ∧
      mapGet? m' k = some 200 ∧
      findTestKeyByFrameCount m' ["K1", "K2"] 200 = k) :=
  ⟨⟨by decide, by decide, by decide⟩,
    c2_unknown_size_fifo_assignment [("K1", 0), ("K2", 0)] ["K1", "K2"] 200
      (by decide) (by decide) (by decide)⟩

/-! ### Claim C10 -/

/-- Claim C10: the implicit `"Frame comparison completed"` marker removes the
current key from the active map but leaves the start-order queue untouched
(first conjunct), yet such stale queue entries are never selected: whenever
resolution (exact match or FIFO assignment) yields a key, that key is in the
active-test map (second conjunct). -/
theorem c10_resolution_targets_active_keys :
    (∀ s : RunnerState,
      (handleFrameComparisonCompleted s).1.testKeyQueue = s.testKeyQueue) ∧
    (∀ (m : List (String × Nat)) (q : List String) (total : Nat),
      (resolveProgress m q total).1 ≠ "" →
      mapContains m (resolveProgress m q total).1 = true) := by
  constructor
  · intro s
    unfold handleFrameComparisonCompleted
    by_cases h : s.currentTestKey = "" <;> simp [h]
  · intro m q total h
    by_cases hf : findTestKeyByFrameCount m q total = ""
    · cases hfa : fifoAssign m q total with
      | none =>
        exfalso
        apply h
        simp [resolveProgress, hf, hfa]
      | some km =>
        obtain ⟨k, m'⟩ := km
        have hres : (resolveProgress m q total).1 = k := by
          simp [resolveProgress, hf, hfa]
        rw [hres]
        obtain ⟨h0, _⟩ := fifoAssign_eq_some m total q k m' hfa
        simp [mapContains, h0]
    · have hres : (resolveProgress m q total).1 = findTestKeyByFrameCount m q total := by
        simp [resolveProgress, hf]
      rw [hres]
      exact findTestKey_contains m q total hf

/-- Witness for C10: a stale queue entry `"OLD"` (still queued, no longer in
the map) is skipped; resolution picks `"NEW"`, which is in the map. -/
theorem c10_resolution_targets_active_keys_witness :
    (resolveProgress [("NEW", 0)] ["OLD", "NEW"] 7).1 ≠ "" ∧
    mapContains [("NEW", 0)] (resolveProgress [("NEW", 0)] ["OLD", "NEW"] 7).1 = true :=
  ⟨by decide,
    c10_resolution_targets_active_keys.2 [("NEW", 0)] ["OLD", "NEW"] 7 (by decide)⟩

/-! ### Claim C3 -/

/-- Counterexample to C3 as stated: the key `"K0/E/S/F0001"` is active with
known total `5`; a second `"Starting comparison for:"` line deriving the
same key resets its total to `0` and appends a duplicate queue entry —
re-announcement is not idempotent on the map or the queue. -/
theorem c3_counterexample :
    extractTestKeyFromPath "x/testSets_results/K0/E/S/F0001" = "K0/E/S/F0001" ∧
    mapGet?
      (handleStartingComparison
        { idleState with activeTests := [("K0/E/S/F0001", 5)],
                         testKeyQueue := ["K0/E/S/F0001"] }
        "x/testSets_results/K0/E/S/F0001").1.activeTests
      "K0/E/S/F0001" = some 0 ∧
    (handleStartingComparison
      { idleState with activeTests := [("K0/E/S/F0001", 5)],
                       testKeyQueue := ["K0/E/S/F0001"] }
      "x/testSets_results/K0/E/S/F0001").1.testKeyQueue =
      ["K0/E/S/F0001", "K0/E/S/F0001"] := by decide

/-- Claim C3 (amended): processing a second `"Starting comparison for:"`
line that derives an already-registered key `k` is *not* idempotent — it
resets `k`'s `knownTotalUnits` to `0` (whatever value `v` it had), appends a
duplicate entry for `k` at the back of the start-order queue (so `k`'s
occurrence count grows by one and its effective start order becomes the
newest), and re-emits the `"Starting..."` event. -/
theorem c3_reregistration_resets
    (s : RunnerState) (folderPath k : String) (v : Nat)
    (hk : extractTestKeyFromPath folderPath = k)
    (hne : k ≠ "")
    (_hreg : mapGet? s.activeTests k = some v) :
    mapGet? (handleStartingComparison s folderPath).1.activeTests k = some 0 ∧
    (handleStartingComparison s folderPath).1.testKeyQueue =
      s.testKeyQueue ++ [k] ∧
    ((handleStartingComparison s folderPath).1.testKeyQueue.count k =
      s.testKeyQueue.count k + 1) ∧
    (handleStartingComparison s folderPath).2 =
      [Event.testProgressUpdated k 0 "Starting..."] := by
  simp only [handleStartingComparison, hk, if_neg hne]
  refine ⟨mapGet?_mapInsert_self s.activeTests k 0, ?_⟩
  simp [List.count_append]

/-- Witness for C3 (amended): the concrete re-registration of
`c3_counterexample`'s state leaves total `0` and a doubled queue entry. -/
theorem c3_reregistration_resets_witness :
    (extractTestKeyFromPath "x/testSets_results/K0/E/S/F0001" = "K0/E/S/F0001" ∧
      mapGet? [("K0/E/S/F0001", 5)] "K0/E/S/F0001" = some 5) ∧
    (mapGet?
      (handleStartingComparison
        { idleState with activeTests := [("K0/E/S/F0001", 5)],
                         testKeyQueue := ["K0/E/S/F0001"] }
        "x/testSets_results/K0/E/S/F0001").1.activeTests
      "K0/E/S/F0001" = some 0 ∧
    (handleStartingComparison
      { idleState with activeTests := [("K0/E/S/F0001", 5)],
                       testKeyQueue := ["K0/E/S/F0001"] }
      "x/testSets_results/K0/E/S/F0001").1.testKeyQueue =
      ["K0/E/S/F0001"] ++ ["K0/E/S/F0001"] ∧
    ((handleStartingComparison
      { idleState with activeTests := [("K0/E/S/F0001", 5)],
                       testKeyQueue := ["K0/E/S/F0001"] }
      "x/testSets_results/K0/E/S/F0001").1.testKeyQueue.count "K0/E/S/F0001" =
      (["K0/E/S/F0001"] : List String).count "K0/E/S/F0001" + 1) ∧
    (handleStartingComparison
      { idleState with activeTests := [("K0/E/S/F0001", 5)],
                       testKeyQueue := ["K0/E/S/F0001"] }
      "x/testSets_results/K0/E/S/F0001").2 =
      [Event.testProgressUpdated "K0/E/S/F0001" 0 "Starting..."]) :=
  ⟨⟨by decide, by decide⟩,
    c3_reregistration_resets
      { idleState with activeTests := [("K0/E/S/F0001", 5)],
                       testKeyQueue := ["K0/E/S/F0001"] }
      "x/testSets_results/K0/E/S/F0001" "K0/E/S/F0001" 5
      (by decide) (by decide) (by decide)⟩

/-! ### Claim C4 -/

theorem replaceBackslashes_eq_self :
    ∀ {l : List Char}, (∀ c ∈ l, c ≠ '\\') → replaceBackslashes l = l := by
  intro l h
  induction l with
  | nil => rfl
  | cons c rest ih =>
    have hc : c ≠ '\\' := h c (List.mem_cons_self _ _)
    have hrest := ih (fun x hx => h x (List.mem_cons_of_mem _ hx))
    simp only [replaceBackslashes, List.map_cons, if_neg hc] at *
    rw [hrest]

theorem replaceBackslashes_append (a b : List Char) :
    replaceBackslashes (a ++ b) = replaceBackslashes a ++ replaceBackslashes b := by
  simp [replaceBackslashes]

theorem lowerChars_append (a b : List Char) :
    lowerChars (a ++ b) = lowerChars a ++ lowerChars b := by
  simp [lowerChars]

theorem stripTrailingSlashes_append_no_trailing (a b : List Char)
    (hb : b ≠ []) (hlast : b.getLast? ≠ some '/') :
    stripTrailingSlashes (a ++ b) = a ++ b := by
  obtain ⟨c, t, hct⟩ : ∃ c t, b.reverse = c :: t := by
    cases hbr : b.reverse with
    | nil =>
      exact absurd (by simpa using congrArg List.reverse hbr) hb
    | cons c t => exact ⟨c, t, rfl⟩
  have hc : (c == '/') = false := by
    have : b.getLast? = some c := by
      rw [← List.head?_reverse, hct]; rfl
    simpa using fun hcc => hlast (by rw [this, hcc])
  calc stripTrailingSlashes (a ++ b)
      = ((b.reverse ++ a.reverse).dropWhile (fun x => x == '/')).reverse := by
        rw [stripTrailingSlashes, List.reverse_append]
    _ = ((c :: (t ++ a.reverse)).dropWhile (fun x => x == '/')).reverse := by
        rw [hct, List.cons_append]
    _ = (c :: (t ++ a.reverse)).reverse := by
        rw [List.dropWhile_cons, hc]; simp
    _ = a ++ b := by
        rw [← List.cons_append, ← hct, ← List.reverse_append, List.reverse_reverse]

theorem dropWhile_append_all {p : Char → Bool} :
    ∀ {s l : List Char}, (∀ c ∈ s, p c = true) →
      (s ++ l).dropWhile p = l.dropWhile p := by
  intro s l h
  induction s with
  | nil => rfl
  | cons c rest ih =>
    rw [List.cons_append, List.dropWhile_cons, h c (List.mem_cons_self _ _)]
    exact ih (fun x hx => h x (List.mem_cons_of_mem _ hx))

/-- A case variant of the marker (anything whose lower-casing is
`"testsets_results"`) contains no backslash. -/
theorem marker_variant_no_backslash {marker : List Char}
    (h : lowerChars marker = markerChars) : ∀ c ∈ marker, c ≠ '\\' := by
  intro c hc hbc
  have hmem : Char.toLower c ∈ markerChars := by
    rw [← h]
    exact List.mem_map_of_mem Char.toLower hc
  rw [hbc] at hmem
  exact absurd hmem (by decide)

/-- A case variant of the marker has the marker's length (16). -/
theorem marker_variant_length {marker : List Char}
    (h : lowerChars marker = markerChars) :
    marker.length = markerChars.length := by
  have := congrArg List.length h
  simpa [lowerChars] using this

/-- When the (lower-cased, separator-normalized) path contains the marker,
first at index `i`, `extractTestKeyFromPathL` takes the marker branch:
everything after position `i + 16` of the normalized path, leading slashes
skipped, trailing slashes chopped, separators normalized once more. -/
theorem extractTestKeyFromPathL_marker (p : List Char) (i : Nat)
    (h : findSub markerChars (lowerChars (replaceBackslashes p)) = some i) :
    extractTestKeyFromPathL p =
      replaceBackslashes (stripTrailingSlashes
        (((replaceBackslashes p).drop (i + markerChars.length)).dropWhile
          (fun c => c == '/'))) := by
  simp only [extractTestKeyFromPathL, h]

/-- Counterexample to C4 as stated: the marker followed by
`Cat/Ev/Set/F0007/rest` derives `"Cat/Ev/Set/F0007/rest"`, not the
four-component key `"Cat/Ev/Set/F0007"` — everything after the marker is
kept. -/
theorem c4_counterexample :
    extractTestKeyFromPath "C:/testSets_results/Cat/Ev/Set/F0007/rest" ≠
      "Cat/Ev/Set/F0007" ∧
    extractTestKeyFromPath "C:/testSets_results/Cat/Ev/Set/F0007/rest" =
      "Cat/Ev/Set/F0007/rest" := by decide

/-- Claim C4 (amended): for *every* folder path that contains the
results-root marker (case-insensitive, any mix of slash/backslash
separators, any prefix before it) followed by `Cat/Ev/Set/F0007/rest...`,
test-key derivation returns the *entire* remainder
`Cat/Ev/Set/F0007/rest...` (separators normalized, leading and trailing
slashes stripped); it returns `Cat/Ev/Set/F0007` only when nothing follows
the frame folder.  The path is `pre ++ marker ++ seps ++ Cat/Ev/Set/F0007/
++ rest` with `marker` any case variant of `testSets_results`, `seps` any
run of separators, and `rest` non-empty, backslash-free and not ending in a
slash; the hypothesis `hfirst` states that the path's first case-insensitive
marker occurrence is this one (i.e. none starts inside `pre` or straddles
its end), which is what the source's `indexOf` locates. -/
theorem c4_marker_derivation_keeps_remainder
    (pre marker seps rest : List Char)
    (hmark : lowerChars marker = markerChars)
    (hseps : ∀ c ∈ seps, c = '/' ∨ c = '\\')
    (h1 : rest ≠ [])
    (h2 : ∀ c ∈ rest, c ≠ '\\')
    (h3 : rest.getLast? ≠ some '/')
    (hfirst : findSub markerChars (lowerChars (replaceBackslashes
        (pre ++ marker ++ seps ++ ("Cat/Ev/Set/F0007/".data ++ rest)))) =
      some pre.length) :
    extractTestKeyFromPath (String.mk
        (pre ++ marker ++ seps ++ ("Cat/Ev/Set/F0007/".data ++ rest))) =
      String.mk ("Cat/Ev/Set/F0007/".data ++ rest) := by
  have hmb : replaceBackslashes marker = marker :=
    replaceBackslashes_eq_self (marker_variant_no_backslash hmark)
  have hkey : replaceBackslashes "Cat/Ev/Set/F0007/".data =
      "Cat/Ev/Set/F0007/".data := by decide
  have hrest : replaceBackslashes rest = rest := replaceBackslashes_eq_self h2
  have hrbp : replaceBackslashes
      (pre ++ marker ++ seps ++ ("Cat/Ev/Set/F0007/".data ++ rest)) =
      replaceBackslashes pre ++ marker ++ replaceBackslashes seps ++
        ("Cat/Ev/Set/F0007/".data ++ rest) := by
    simp only [replaceBackslashes_append, hmb, hkey, hrest]
  have hlen : (replaceBackslashes pre ++ marker).length =
      pre.length + markerChars.length := by
    simp [replaceBackslashes, marker_variant_length hmark]
  have hdrop : (replaceBackslashes
      (pre ++ marker ++ seps ++ ("Cat/Ev/Set/F0007/".data ++ rest))).drop
        (pre.length + markerChars.length) =
      replaceBackslashes seps ++ ("Cat/Ev/Set/F0007/".data ++ rest) := by
    rw [hrbp, List.append_assoc (replaceBackslashes pre ++ marker), ← hlen,
      List.drop_left]
  have hsall : ∀ c ∈ replaceBackslashes seps, ((c == '/') = true) := by
    intro c hc
    obtain ⟨c0, hc0, rfl⟩ := List.mem_map.mp hc
    rcases hseps c0 hc0 with rfl | rfl <;> decide
  have hdw : (replaceBackslashes seps ++
      ("Cat/Ev/Set/F0007/".data ++ rest)).dropWhile (fun c => c == '/') =
      "Cat/Ev/Set/F0007/".data ++ rest := by
    rw [dropWhile_append_all hsall]
    exact rfl
  have hstrip : stripTrailingSlashes ("Cat/Ev/Set/F0007/".data ++ rest) =
      "Cat/Ev/Set/F0007/".data ++ rest :=
    stripTrailingSlashes_append_no_trailing _ rest h1 h3
  have hfinal : replaceBackslashes ("Cat/Ev/Set/F0007/".data ++ rest) =
      "Cat/Ev/Set/F0007/".data ++ rest := by
    rw [replaceBackslashes_append, hkey, hrest]
  show String.mk (extractTestKeyFromPathL
    (pre ++ marker ++ seps ++ ("Cat/Ev/Set/F0007/".data ++ rest))) = _
  rw [extractTestKeyFromPathL_marker _ pre.length hfirst, hdrop, hdw, hstrip,
    hfinal]

/-- Witness for C4 (amended) at a path with a backslashed prefix, a
mixed-case marker, a backslash separator and a trailing `rest` component:
`D:\out\TestSets_Results\Cat/Ev/Set/F0007/rest`. -/
theorem c4_marker_derivation_keeps_remainder_witness :
    (lowerChars "TestSets_Results".data = markerChars ∧
      (∀ c ∈ ['\\'], c = '/' ∨ c = '\\') ∧
      "rest".data ≠ [] ∧ (∀ c ∈ "rest".data, c ≠ '\\') ∧
      "rest".data.getLast? ≠ some '/' ∧
      findSub markerChars (lowerChars (replaceBackslashes
        ("D:\\out\\".data ++ "TestSets_Results".data ++ ['\\'] ++
          ("Cat/Ev/Set/F0007/".data ++ "rest".data)))) =
        some "D:\\out\\".data.length) ∧
    extractTestKeyFromPath (String.mk
        ("D:\\out\\".data ++ "TestSets_Results".data ++ ['\\'] ++
          ("Cat/Ev/Set/F0007/".data ++ "rest".data))) =
      String.mk ("Cat/Ev/Set/F0007/".data ++ "rest".data) :=
  ⟨⟨by decide, by decide, by decide, by decide, by decide, by decide⟩,
    c4_marker_derivation_keeps_remainder "D:\\out\\".data
      "TestSets_Results".data ['\\'] "rest".data (by decide) (by decide)
      (by decide) (by decide) (by decide) (by decide)⟩

/-! ### Claim C5 -/

/-- Counterexample to C5 as stated: `runAll` with valid inputs whose launch
fails (program not found) emits its failure outcome but leaves
`mode == Mode::All` — the coordinator is *not* back in the Idle state
(`mode == None`), because the launch-failure paths of `startProcess` return
without resetting the mode that `runAll` set at lines 126-127. -/
theorem c5_counterexample :
    (runAllModel idleState "T" "I" LaunchResult.notFound).1.mode = Mode.All ∧
    (runAllModel idleState "T" "I" LaunchResult.notFound).1.mode ≠ Mode.None ∧
    ((runAllModel idleState "T" "I" LaunchResult.notFound).2.filter
      isRunOutcome).length = 1 := by decide

/-- Claim C5 (amended): each failure path emits exactly one *failure*
outcome (`success = false`); the input-validation failures change no state
at all (a coordinator that was Idle stays Idle) and their event output is
exactly the single failure outcome, while the launch failures leave `mode`
set to the *requested* mode — not `Mode::None` — with the step-2 flag clear
and their run-outcome events are exactly one failure outcome.  The
coordinator is still ready for the next run request only because the run
entry points reset mode and trackers unconditionally, as the final conjunct
shows. -/
theorem c5_failure_paths_emit_outcome
    (s : RunnerState) (t i : String) (launch : LaunchResult) :
    ((runAllModel s "" i launch).1 = s ∧
      (runAllModel s "" i launch).2 =
        [Event.runFinished false "all" (-1) "" "Invalid tester path"]) ∧
    (t ≠ "" → (runAllModel s t "" launch).1 = s ∧
      (runAllModel s t "" launch).2 =
        [Event.runFinished false "all" (-1) "" "Invalid INI path"]) ∧
    (t ≠ "" → i ≠ "" → launch ≠ LaunchResult.ok →
      (runAllModel s t i launch).1.mode = Mode.All ∧
      (runAllModel s t i launch).1.step2Queued = false ∧
      (∃ msg, (runAllModel s t i launch).2.filter isRunOutcome =
        [Event.runFinished false "unknown" (-1) "" msg]) ∧
      (runAllModel (runAllModel s t i launch).1 t i LaunchResult.ok).1.mode =
        Mode.All ∧
      (runAllModel (runAllModel s t i launch).1 t i
        LaunchResult.ok).1.processRunning = true) := by
  refine ⟨⟨?_, ?_⟩, fun ht => ⟨?_, ?_⟩, fun ht hi hl => ?_⟩
  · simp [runAllModel]
  · simp [runAllModel]
  · simp [runAllModel, ht]
  · simp [runAllModel, ht]
  · cases launch with
    | ok => exact absurd rfl hl
    | notFound =>
      refine ⟨?_, ?_, ⟨"Program not found: python", ?_⟩, ?_, ?_⟩ <;>
        simp [runAllModel, startProcessModel, ht, hi, isRunOutcome]
    | failedToStart =>
      refine ⟨?_, ?_, ⟨"Failed to start process", ?_⟩, ?_, ?_⟩ <;>
        simp [runAllModel, startProcessModel, ht, hi, isRunOutcome]

/-- Witness for C5 (amended): the launch-failure conjunct at the concrete
failed run of `c5_counterexample`. -/
theorem c5_failure_paths_emit_outcome_witness :
    (("T" : String) ≠ "" ∧ ("I" : String) ≠ "" ∧
      LaunchResult.notFound ≠ LaunchResult.ok) ∧
    ((runAllModel idleState "T" "I" LaunchResult.notFound).1.mode = Mode.All ∧
      (runAllModel idleState "T" "I" LaunchResult.notFound).1.step2Queued = false ∧
      (∃ msg, (runAllModel idleState "T" "I" LaunchResult.notFound).2.filter
        isRunOutcome = [Event.runFinished false "unknown" (-1) "" msg]) ∧
      (runAllModel (runAllModel idleState "T" "I" LaunchResult.notFound).1 "T" "I"
        LaunchResult.ok).1.mode = Mode.All ∧
      (runAllModel (runAllModel idleState "T" "I" LaunchResult.notFound).1 "T" "I"
        LaunchResult.ok).1.processRunning = true) :=
  ⟨⟨by decide, by decide, by decide⟩,
    (c5_failure_paths_emit_outcome idleState "T" "I" LaunchResult.notFound).2.2
      (by decide) (by decide) (by decide)⟩

/-! ### Claim C6 -/

/-- Claim C6: in chained (`CompareThenPrepare`) mode, when the first phase's
process terminates with the second phase not yet queued, the handler queues
and starts the second phase: no run-outcome event is emitted, the mode stays
`CompareThenPrepare` (no Idle transition), the step-2 flag is set and the
(relaunched) process is running; only the second phase's exit then produces
a run-outcome event — exactly one — after which the mode is `None`. -/
theorem c6_chained_mode_runs_second_phase
    (s : RunnerState) (code : Int) (st : ExitStatus) (o e : String)
    (h1 : s.mode = Mode.CompareThenPrepare) (h2 : s.step2Queued = false) :
    (∀ ev ∈ (onProcessFinishedModel s code st o e LaunchResult.ok).2,
      isRunOutcome ev = false) ∧
    (onProcessFinishedModel s code st o e LaunchResult.ok).1.mode =
      Mode.CompareThenPrepare ∧
    (onProcessFinishedModel s code st o e LaunchResult.ok).1.step2Queued = true ∧
    (onProcessFinishedModel s code st o e LaunchResult.ok).1.processRunning = true ∧
    ∀ (code2 : Int) (st2 : ExitStatus) (o2 e2 : String) (launch2 : LaunchResult),
      ((onProcessFinishedModel
          (onProcessFinishedModel s code st o e LaunchResult.ok).1
          code2 st2 o2 e2 launch2).2.filter isRunOutcome).length = 1 ∧
      (onProcessFinishedModel
        (onProcessFinishedModel s code st o e LaunchResult.ok).1
        code2 st2 o2 e2 launch2).1.mode = Mode.None := by
  refine ⟨?_, ?_, ?_, ?_, fun code2 st2 o2 e2 launch2 => ⟨?_, ?_⟩⟩ <;>
    simp [onProcessFinishedModel, runNextStepModel, startProcessModel, h1, h2,
      isRunOutcome]

/-- Witness for C6 at a concrete chained first-phase exit. -/
theorem c6_chained_mode_runs_second_phase_witness :
    (({ idleState with mode := Mode.CompareThenPrepare, processRunning := true } : RunnerState).mode = Mode.CompareThenPrepare ∧
      ({ idleState with mode := Mode.CompareThenPrepare, processRunning := true } : RunnerState).step2Queued = false) ∧
    ((∀ ev ∈ (onProcessFinishedModel
        { idleState with mode := Mode.CompareThenPrepare, processRunning := true }
        0 ExitStatus.NormalExit "" "" LaunchResult.ok).2,
      isRunOutcome ev = false) ∧
    (onProcessFinishedModel
      { idleState with mode := Mode.CompareThenPrepare, processRunning := true }
      0 ExitStatus.NormalExit "" "" LaunchResult.ok).1.mode =
        Mode.CompareThenPrepare ∧
    (onProcessFinishedModel
      { idleState with mode := Mode.CompareThenPrepare, processRunning := true }
      0 ExitStatus.NormalExit "" "" LaunchResult.ok).1.step2Queued = true ∧
    (onProcessFinishedModel
      { idleState with mode := Mode.CompareThenPrepare, processRunning := true }
      0 ExitStatus.NormalExit "" "" LaunchResult.ok).1.processRunning = true ∧
    ∀ (code2 : Int) (st2 : ExitStatus) (o2 e2 : String) (launch2 : LaunchResult),
      ((onProcessFinishedModel
          (onProcessFinishedModel
            { idleState with mode := Mode.CompareThenPrepare, processRunning := true }
            0 ExitStatus.NormalExit "" "" LaunchResult.ok).1
          code2 st2 o2 e2 launch2).2.filter isRunOutcome).length = 1 ∧
      (onProcessFinishedModel
        (onProcessFinishedModel
          { idleState with mode := Mode.CompareThenPrepare, processRunning := true }
          0 ExitStatus.NormalExit "" "" LaunchResult.ok).1
        code2 st2 o2 e2 launch2).1.mode = Mode.None) :=
  ⟨⟨by decide, by decide⟩,
    c6_chained_mode_runs_second_phase
      { idleState with mode := Mode.CompareThenPrepare, processRunning := true }
      0 ExitStatus.NormalExit "" "" (by decide) (by decide)⟩

/-! ### Claim C7 -/

/-- Counterexample to C7 as stated: the first-phase exit of a chained run is
a physical process exit of the primary run, yet it produces *zero*
run-outcome events (the handler chains the second phase instead). -/
theorem c7_counterexample :
    ((onProcessFinishedModel
        { idleState with mode := Mode.CompareThenPrepare, processRunning := true }
        0 ExitStatus.NormalExit "" "" LaunchResult.ok).2.filter
      isRunOutcome).length = 0 := by decide

/-- Claim C7 (amended): every primary-run process exit *other than a chained
first-phase exit* produces exactly one run-outcome event, whose success flag
is true iff the process exited normally with code 0, and which carries the
captured stdout and stderr; the handler then transitions to `Mode::None`.
(The chained first-phase exit of the counterexample produces none.) -/
theorem c7_final_exit_single_outcome
    (s : RunnerState) (code : Int) (st : ExitStatus) (o e : String)
    (launch : LaunchResult)
    (h : ¬(s.mode = Mode.CompareThenPrepare ∧ s.step2Queued = false)) :
    ∃ b, (onProcessFinishedModel s code st o e launch).2.filter isRunOutcome =
        [Event.runFinished b (modeLabel s.mode) code o e] ∧
      (b = true ↔ (st = ExitStatus.NormalExit ∧ code = 0)) ∧
      (onProcessFinishedModel s code st o e launch).1.mode = Mode.None := by
  refine ⟨decide (st = ExitStatus.NormalExit ∧ code = 0), ?_, by simp, ?_⟩
  · simp [onProcessFinishedModel, h, isRunOutcome]
  · simp [onProcessFinishedModel, h]

/-- Witness for C7 (amended): a crash exit with code 9 of a plain `all` run
yields one failure outcome carrying the captured output. -/
theorem c7_final_exit_single_outcome_witness :
    (¬(({ idleState with mode := Mode.All, processRunning := true } :
        RunnerState).mode = Mode.CompareThenPrepare ∧
      ({ idleState with mode := Mode.All, processRunning := true } :
        RunnerState).step2Queued = false)) ∧
    ∃ b, (onProcessFinishedModel
        { idleState with mode := Mode.All, processRunning := true }
        9 ExitStatus.CrashExit "out" "err" LaunchResult.ok).2.filter
        isRunOutcome =
        [Event.runFinished b
          (modeLabel ({ idleState with mode := Mode.All, processRunning := true } : RunnerState).mode) 9 "out" "err"] ∧
      (b = true ↔ (ExitStatus.CrashExit = ExitStatus.NormalExit ∧ (9 : Int) = 0)) ∧
      (onProcessFinishedModel
        { idleState with mode := Mode.All, processRunning := true }
        9 ExitStatus.CrashExit "out" "err" LaunchResult.ok).1.mode = Mode.None :=
  ⟨by decide,
    c7_final_exit_single_outcome
      { idleState with mode := Mode.All, processRunning := true }
      9 ExitStatus.CrashExit "out" "err" LaunchResult.ok (by decide)⟩

/-! ### Claim C8 -/

/-- Counterexample to C8 as stated: `stop()` called while nothing is running
(the Idle state) emits *no* events at all — in particular not the "exactly
one failure run-outcome" the claim requires of every call regardless of
prior state — because the whole primary branch is guarded by the process
being `Running`/`Starting`. -/
theorem c8_counterexample :
    stopModel idleState = (idleState, []) ∧
    ((stopModel idleState).2.filter isRunOutcome).length = 0 := by decide

/-- Claim C8 (amended): when the primary process *is* running (and the
independent prepare-ui channel is not), `stop()` emits a `"Cancelled"`
per-unit event (percentage `-1`) for every key in the active-test map —
every active key gets its event, every emitted pre-outcome event is the
`"Cancelled"` event of some active key, and there are exactly as many as
active entries — followed by exactly one failure run-outcome with the
cancellation message, and resets the coordinator to Idle (`mode == None`,
step-2 flag cleared, trackers emptied).  When nothing is running, `stop()`
emits nothing (`c8_counterexample`). -/
theorem c8_cancel_reports_each_active_test
    (s : RunnerState) (h1 : s.processRunning = true)
    (h2 : s.prepareUIRunning = false) :
    (∃ pre, (stopModel s).2 = pre ++
        [Event.runFinished false (modeLabel s.mode) (-1) ""
          "Operation cancelled by user"] ∧
      pre.length = s.activeTests.length ∧
      (∀ k v, (k, v) ∈ s.activeTests →
        Event.testProgressUpdated k (-1) "Cancelled" ∈ pre) ∧
      (∀ ev ∈ pre, ∃ k v, (k, v) ∈ s.activeTests ∧
        ev = Event.testProgressUpdated k (-1) "Cancelled")) ∧
    ((stopModel s).2.filter isRunOutcome).length = 1 ∧
    (stopModel s).1.mode = Mode.None ∧
    (stopModel s).1.step2Queued = false ∧
    (stopModel s).1.activeTests = [] ∧
    (stopModel s).1.testKeyQueue = [] ∧
    (stopModel s).1.processRunning = false := by
  have hev : (stopModel s).2 =
      (s.activeTests.map
        (fun p => Event.testProgressUpdated p.1 (-1) "Cancelled")) ++
      [Event.runFinished false (modeLabel s.mode) (-1) ""
        "Operation cancelled by user"] := by
    simp [stopModel, h1, h2]
  refine ⟨⟨s.activeTests.map
      (fun p => Event.testProgressUpdated p.1 (-1) "Cancelled"),
      hev, List.length_map _ _, ?_, ?_⟩, ?_, ?_, ?_, ?_, ?_, ?_⟩
  · intro k v hm
    exact List.mem_map_of_mem _ hm
  · intro ev hmem
    obtain ⟨p, hp, rfl⟩ := List.mem_map.mp hmem
    exact ⟨p.1, p.2, hp, rfl⟩
  · rw [hev, List.filter_append]
    rw [List.filter_eq_nil_iff.mpr, List.nil_append]
    · simp [isRunOutcome]
    · intro ev hmem
      obtain ⟨p, _, rfl⟩ := List.mem_map.mp hmem
      simp [isRunOutcome]
  all_goals simp [stopModel, h1, h2]

/-- Witness for C8 (amended), scenario D: two active keys → two `"Cancelled"`
events, then one cancellation outcome, and the state returns to Idle. -/
theorem c8_cancel_reports_each_active_test_witness :
    (({ idleState with
          mode := Mode.All, processRunning := true,
          activeTests := [("K1", 10), ("K2", 0)],
          testKeyQueue := ["K1", "K2"] } : RunnerState).processRunning = true ∧
      ({ idleState with
          mode := Mode.All, processRunning := true,
          activeTests := [("K1", 10), ("K2", 0)],
          testKeyQueue := ["K1", "K2"] } : RunnerState).prepareUIRunning = false) ∧
    ((∃ pre, (stopModel
        { idleState with
          mode := Mode.All, processRunning := true,
          activeTests := [("K1", 10), ("K2", 0)],
          testKeyQueue := ["K1", "K2"] }).2 = pre ++
        [Event.runFinished false
          (modeLabel ({ idleState with
            mode := Mode.All, processRunning := true,
            activeTests := [("K1", 10), ("K2", 0)],
            testKeyQueue := ["K1", "K2"] } : RunnerState).mode) (-1) ""
          "Operation cancelled by user"] ∧
      pre.length = ({ idleState with
          mode := Mode.All, processRunning := true,
          activeTests := [("K1", 10), ("K2", 0)],
          testKeyQueue := ["K1", "K2"] } : RunnerState).activeTests.length ∧
      (∀ k v, (k, v) ∈ ({ idleState with
          mode := Mode.All, processRunning := true,
          activeTests := [("K1", 10), ("K2", 0)],
          testKeyQueue := ["K1", "K2"] } : RunnerState).activeTests →
        Event.testProgressUpdated k (-1) "Cancelled" ∈ pre) ∧
      (∀ ev ∈ pre, ∃ k v, (k, v) ∈ ({ idleState with
          mode := Mode.All, processRunning := true,
          activeTests := [("K1", 10), ("K2", 0)],
          testKeyQueue := ["K1", "K2"] } : RunnerState).activeTests ∧
        ev = Event.testProgressUpdated k (-1) "Cancelled")) ∧
    ((stopModel
      { idleState with
          mode := Mode.All, processRunning := true,
          activeTests := [("K1", 10), ("K2", 0)],
          testKeyQueue := ["K1", "K2"] }).2.filter isRunOutcome).length = 1 ∧
    (stopModel
      { idleState with
          mode := Mode.All, processRunning := true,
          activeTests := [("K1", 10), ("K2", 0)],
          testKeyQueue := ["K1", "K2"] }).1.mode = Mode.None ∧
    (stopModel
      { idleState with
          mode := Mode.All, processRunning := true,
          activeTests := [("K1", 10), ("K2", 0)],
          testKeyQueue := ["K1", "K2"] }).1.step2Queued = false ∧
    (stopModel
      { idleState with
          mode := Mode.All, processRunning := true,
          activeTests := [("K1", 10), ("K2", 0)],
          testKeyQueue := ["K1", "K2"] }).1.activeTests = [] ∧
    (stopModel
      { idleState with
          mode := Mode.All, processRunning := true,
          activeTests := [("K1", 10), ("K2", 0)],
          testKeyQueue := ["K1", "K2"] }).1.testKeyQueue = [] ∧
    (stopModel
      { idleState with
          mode := Mode.All, processRunning := true,
          activeTests := [("K1", 10), ("K2", 0)],
          testKeyQueue := ["K1", "K2"] }).1.processRunning = false) :=
  ⟨⟨by decide, by decide⟩,
    c8_cancel_reports_each_active_test
      { idleState with
          mode := Mode.All, processRunning := true,
          activeTests := [("K1", 10), ("K2", 0)],
          testKeyQueue := ["K1", "K2"] } (by decide) (by decide)⟩

/-! ### Claim C9 -/

/-- Claim C9: an overall-progress line whose `"Current folder: a/b frames"`
sub-clause has `b == 0` is handled without dividing by zero — the per-folder
percent is the guarded literal `0`, so any per-unit event emitted carries
percentage `0` — and the aggregate overall-progress event is still emitted
from the line's own percent field. -/
theorem c9_zero_folder_total_is_safe
    (s : RunnerState) (current total percent folderCurrent : Nat) :
    Event.progressUpdated (percent : Int) (progressMessage current total) ∈
      (handleOverallProgress s current total percent
        (some (folderCurrent, 0))).2 ∧
    ∀ k p msg, Event.testProgressUpdated k p msg ∈
        (handleOverallProgress s current total percent
          (some (folderCurrent, 0))).2 →
      p = 0 := by
  by_cases hr : (resolveProgress s.activeTests s.testKeyQueue 0).1 = ""
  · constructor
    · simp [handleOverallProgress, hr]
    · intro k p msg hmem
      simp [handleOverallProgress, hr] at hmem
  · constructor
    · simp [handleOverallProgress, hr]
    · intro k p msg hmem
      simp [handleOverallProgress, hr] at hmem
      exact hmem.2.1

/-- Witness for C9: with the unsized active test `"K"`, the zero-total
sub-clause still yields the aggregate event at the line's own 30 percent, and
the per-unit event for `"K"` carries percentage 0. -/
theorem c9_zero_folder_total_is_safe_witness :
    Event.progressUpdated 30 (progressMessage 3 10) ∈
      (handleOverallProgress
        { idleState with activeTests := [("K", 0)], testKeyQueue := ["K"] }
        3 10 30 (some (5, 0))).2 ∧
    Event.testProgressUpdated "K" 0 (progressMessage 5 0) ∈
      (handleOverallProgress
        { idleState with activeTests := [("K", 0)], testKeyQueue := ["K"] }
        3 10 30 (some (5, 0))).2 ∧
    (0 : Int) = 0 :=
  ⟨(c9_zero_folder_total_is_safe
      { idleState with activeTests := [("K", 0)], testKeyQueue := ["K"] }
      3 10 30 5).1,
    by decide,
    (c9_zero_folder_total_is_safe
      { idleState with activeTests := [("K", 0)], testKeyQueue := ["K"] }
      3 10 30 5).2 "K" 0 (progressMessage 5 0) (by decide)⟩

end RenderCompare
